import Mathlib

/-!
Shallow embedding of the UE5-3DGS core (coordinate conversion, camera
trajectory generation, COLMAP/PLY serialization, depth linearization) and
proofs of the specification claims about it.

Modelling conventions:
* `double`/`float` arithmetic is embedded as exact arithmetic (`ℝ` where the
  code computes with trigonometry, `ℚ` where the computation is rational and
  concrete evaluation is needed); overflow/rounding of the machine floats is
  outside the model.
* Engine containers (`TArray`, `FString`) are embedded as `List`.
* File I/O results are abstracted as a boolean parameter (`save`): the
  serializers' value-level logic is modelled, the platform write is not.
-/

namespace UE5toGS

/-- 3-component vector (`FVector`), embedded over `ℝ`. -/
structure Vec3 where
  x : ℝ
  y : ℝ
  z : ℝ

/-- Euler rotation (`FRotator`): pitch, yaw, roll in degrees. -/
structure Rotator where
  pitch : ℝ
  yaw : ℝ
  roll : ℝ

/-- Quaternion (`FQuat`), stored (x, y, z, w) as in the engine. -/
structure Quat where
  x : ℝ
  y : ℝ
  z : ℝ
  w : ℝ

noncomputable def Vec3.sub (a b : Vec3) : Vec3 := ⟨a.x - b.x, a.y - b.y, a.z - b.z⟩

noncomputable def Vec3.neg (a : Vec3) : Vec3 := ⟨-a.x, -a.y, -a.z⟩

/-- Squared Euclidean norm of a vector. -/
noncomputable def Vec3.sqNorm (a : Vec3) : ℝ := a.x ^ 2 + a.y ^ 2 + a.z ^ 2

/-- Euclidean distance between two points. -/
noncomputable def dist3 (a b : Vec3) : ℝ := Real.sqrt (Vec3.sqNorm (Vec3.sub a b))

/-! ## FCoordinateConverter (CoordinateConverter.cpp) -/

/-- Embeds `FCoordinateConverter::CmToMeters = 0.01`. -/
noncomputable def CmToMeters : ℝ := 1 / 100

/-- Embeds `FCoordinateConverter::MetersToCm = 100.0`. -/
noncomputable def MetersToCm : ℝ := 100

/-- Embeds `FCoordinateConverter::ConvertPositionToColmap`:
axis swap (COLMAP X = UE5 Y, COLMAP Y = -UE5 Z, COLMAP Z = UE5 X)
plus cm → m scale. -/
noncomputable def ConvertPositionToColmap (p : Vec3) : Vec3 :=
  ⟨p.y * CmToMeters, -p.z * CmToMeters, p.x * CmToMeters⟩

/-- Embeds `FCoordinateConverter::ConvertPositionFromColmap`:
inverse axis swap (UE5 X = COLMAP Z, UE5 Y = COLMAP X, UE5 Z = -COLMAP Y)
plus m → cm scale. -/
noncomputable def ConvertPositionFromColmap (p : Vec3) : Vec3 :=
  ⟨p.z * MetersToCm, p.x * MetersToCm, -p.y * MetersToCm⟩

/-! ## FDepthExtractor::SceneDepthToLinear (DepthExtractor.cpp)

The depth linearization is plain rational arithmetic, embedded over `ℚ`. -/

/-- Embeds `FMath::Clamp`. -/
def clampQ (x lo hi : ℚ) : ℚ := if x < lo then lo else if hi < x then hi else x

/-- Embeds `FDepthExtractor::SceneDepthToLinear`: reversed-Z normalized depth to
linear depth.  Early-outs: `SceneDepth >= 1` returns the near plane,
`SceneDepth <= 0` returns the far plane; otherwise `Near / SceneDepth`
clamped to `[Near, Far]`. -/
def SceneDepthToLinear (sceneDepth nearPlane farPlane : ℚ) : ℚ :=
  if 1 ≤ sceneDepth then nearPlane
  else if sceneDepth ≤ 0 then farPlane
  else clampQ (nearPlane / sceneDepth) nearPlane farPlane

/-- The behaviour the spec ascribes to `SceneDepthToLinear` for fixed
near/far planes, quantified over the normalized depth. -/
def SceneDepthSpecAt (nearPlane farPlane : ℚ) : Prop :=
  ∀ d : ℚ,
    (1 ≤ d → SceneDepthToLinear d nearPlane farPlane = nearPlane) ∧
    (d ≤ 0 → SceneDepthToLinear d nearPlane farPlane = farPlane) ∧
    (0 < d → d < 1 →
      SceneDepthToLinear d nearPlane farPlane = clampQ (nearPlane / d) nearPlane farPlane)

/-! ## FGaussianSplat SH color conversion (PlyWriter.cpp)

`ColorToSH_DC` / `SH_DCToColor` are rational arithmetic on the color
channels, embedded over `ℚ`.  An `FColor` channel is a byte, embedded as
`ℕ` (with a `≤ 255` side condition where it matters). -/

/-- RGB color (`FColor`, alpha omitted: the conversions ignore it). -/
structure RGB where
  r : ℕ
  g : ℕ
  b : ℕ
  deriving DecidableEq

/-- The zeroth spherical-harmonic basis constant
`C0 = 0.28209479177387814` as an exact rational. -/
def C0 : ℚ := 28209479177387814 / 10 ^ 17

/-- Embeds `FGaussianSplat::ColorToSH_DC` on one channel:
`(channel/255 - 0.5) / C0`. -/
def channelToSH (c : ℕ) : ℚ := ((c : ℚ) / 255 - 1 / 2) / C0

/-- Embeds `FGaussianSplat::ColorToSH_DC`, componentwise on R, G, B. -/
def ColorToSH_DC (c : RGB) : ℚ × ℚ × ℚ :=
  (channelToSH c.r, channelToSH c.g, channelToSH c.b)

/-- Embeds `FGaussianSplat::SH_DCToColor` on one channel:
`static_cast<uint8>(FMath::Clamp((SH * C0 + 0.5) * 255, 0, 255))`.
The C++ cast truncates toward zero; the clamped value is nonnegative, so
this is the floor. -/
def shChannelToByte (s : ℚ) : ℕ := (⌊clampQ ((s * C0 + 1 / 2) * 255) 0 255⌋).toNat

/-- Embeds `FGaussianSplat::SH_DCToColor`, componentwise. -/
def SH_DCToColor (v : ℚ × ℚ × ℚ) : RGB :=
  ⟨shChannelToByte v.1, shChannelToByte v.2.1, shChannelToByte v.2.2⟩

/-- Modelled from the spec: the inverse conversion as §4.5 describes it,
with round-to-nearest instead of the source's truncating cast.  Used to
compare the spec's description against the source behaviour. -/
def shChannelToByteSpecRounded (s : ℚ) : ℕ :=
  (⌊clampQ ((s * C0 + 1 / 2) * 255) 0 255 + 1 / 2⌋).toNat

/-- Modelled from the spec: `SH_DCToColor` as §4.5 describes it
(round to nearest), componentwise. -/
def SH_DCToColorSpecRounded (v : ℚ × ℚ × ℚ) : RGB :=
  ⟨shChannelToByteSpecRounded v.1, shChannelToByteSpecRounded v.2.1,
    shChannelToByteSpecRounded v.2.2⟩

/-! ## EColmapCameraModel / FCameraIntrinsics (CameraIntrinsics.h/.cpp)

The intrinsic parameters are `double`s, embedded over `ℚ`; width/height are
`int32`, embedded as `ℕ`. -/

/-- Embeds `EColmapCameraModel`. -/
inductive EColmapCameraModel where
  | SIMPLE_PINHOLE
  | PINHOLE
  | SIMPLE_RADIAL
  | RADIAL
  | OPENCV
  | FULL_OPENCV
  deriving DecidableEq

/-- Embeds `FCameraIntrinsics`. -/
structure FCameraIntrinsics where
  width : ℕ
  height : ℕ
  focalLengthX : ℚ
  focalLengthY : ℚ
  principalPointX : ℚ
  principalPointY : ℚ
  k1 : ℚ
  k2 : ℚ
  p1 : ℚ
  p2 : ℚ
  cameraModel : EColmapCameraModel

/-- Embeds `FCameraIntrinsics::GetColmapModelId`: `static_cast<int32>(CameraModel)`,
with the enumerators' declared values 0, 1, 2, 3, 4, 6. -/
def GetColmapModelId : EColmapCameraModel → ℤ
  | .SIMPLE_PINHOLE => 0
  | .PINHOLE => 1
  | .SIMPLE_RADIAL => 2
  | .RADIAL => 3
  | .OPENCV => 4
  | .FULL_OPENCV => 6

/-! ### Fixed-point decimal formatting (`FString::Printf` with `%.10f`) -/

/-- Decimal digit to its ASCII character. -/
def digitChar (d : ℕ) : Char := Char.ofNat (48 + d)

/-- Big-endian decimal digit characters of `n` (printf prints `0` for zero). -/
def natDigitsBE (n : ℕ) : List Char :=
  if n = 0 then ['0'] else ((Nat.digits 10 n).reverse).map digitChar

/-- Left-pad a character list with zeros to width `k`. -/
def padZeros (k : ℕ) (l : List Char) : List Char :=
  List.replicate (k - l.length) '0' ++ l

/-- Embeds `%.10f` formatting of a value: sign, integer digits, point, exactly ten
fractional digits.  printf rounds the 10th fractional digit to nearest,
embedded as floor of `|q|·10¹⁰ + 1/2`. -/
def formatFixed10 (q : ℚ) : List Char :=
  let sign : List Char := if q < 0 then ['-'] else []
  let n : ℕ := (⌊|q| * 10 ^ 10 + 1 / 2⌋).toNat
  sign ++ natDigitsBE (n / 10 ^ 10) ++ ['.'] ++ padZeros 10 (natDigitsBE (n % 10 ^ 10))

/-- The literal `0.0` token that `GetColmapParamsString` appends for the four
untracked FULL_OPENCV coefficients. -/
def zeroPadToken : List Char := ['0', '.', '0']

/-- The space-separated value tokens of
`FCameraIntrinsics::GetColmapParamsString`, per camera model (the format
strings of the source, split at their single spaces). -/
def GetColmapParamsTokens (i : FCameraIntrinsics) : List (List Char) :=
  match i.cameraModel with
  | .SIMPLE_PINHOLE =>
      [formatFixed10 i.focalLengthX, formatFixed10 i.principalPointX,
        formatFixed10 i.principalPointY]
  | .PINHOLE =>
      [formatFixed10 i.focalLengthX, formatFixed10 i.focalLengthY,
        formatFixed10 i.principalPointX, formatFixed10 i.principalPointY]
  | .SIMPLE_RADIAL =>
      [formatFixed10 i.focalLengthX, formatFixed10 i.principalPointX,
        formatFixed10 i.principalPointY, formatFixed10 i.k1]
  | .RADIAL =>
      [formatFixed10 i.focalLengthX, formatFixed10 i.principalPointX,
        formatFixed10 i.principalPointY, formatFixed10 i.k1, formatFixed10 i.k2]
  | .OPENCV =>
      [formatFixed10 i.focalLengthX, formatFixed10 i.focalLengthY,
        formatFixed10 i.principalPointX, formatFixed10 i.principalPointY,
        formatFixed10 i.k1, formatFixed10 i.k2, formatFixed10 i.p1, formatFixed10 i.p2]
  | .FULL_OPENCV =>
      [formatFixed10 i.focalLengthX, formatFixed10 i.focalLengthY,
        formatFixed10 i.principalPointX, formatFixed10 i.principalPointY,
        formatFixed10 i.k1, formatFixed10 i.k2, formatFixed10 i.p1, formatFixed10 i.p2,
        zeroPadToken, zeroPadToken, zeroPadToken, zeroPadToken]

/-- Embeds `FCameraIntrinsics::GetColmapParamsString`: the tokens joined by single
spaces. -/
def GetColmapParamsString (i : FCameraIntrinsics) : List Char :=
  List.intercalate [' '] (GetColmapParamsTokens i)

/-- Modelled from the spec: the fixed parameter arity of each COLMAP camera
model (§3 / §4.2 arity table: 3, 4, 4, 5, 8, 12). -/
def colmapModelSpecArity : EColmapCameraModel → ℕ
  | .SIMPLE_PINHOLE => 3
  | .PINHOLE => 4
  | .SIMPLE_RADIAL => 4
  | .RADIAL => 5
  | .OPENCV => 8
  | .FULL_OPENCV => 12

/-- The fractional digits of a formatted token: everything after the first
`'.'`. -/
def fracPart (t : List Char) : List Char := (t.dropWhile (· ≠ '.')).tail

/-! ## FColmapWriter::WriteCamerasBinary (ColmapWriter.cpp)

The binary writer appends fixed-width little-endian fields to a byte
array.  Each appended field is embedded as one `BinField`; the byte-level
widths (8/4/4/8/8/8·k) are fixed by the constructors. -/

/-- One fixed-width field appended to the `cameras.bin` byte stream. -/
inductive BinField where
  | u64 : ℕ → BinField
  | u32 : ℕ → BinField
  | i32 : ℤ → BinField
  | f64 : ℚ → BinField

/-- Embeds `FColmapCamera` (the fields `WriteCamerasBinary` reads). -/
structure FColmapCamera where
  cameraId : ℕ
  intrinsics : FCameraIntrinsics

/-- The model-specific parameter vector built by the `switch` inside
`FColmapWriter::WriteCamerasBinary`.  Note the source only cases on
SIMPLE_PINHOLE, PINHOLE and OPENCV; every other model (SIMPLE_RADIAL,
RADIAL, FULL_OPENCV) takes the `default` branch `[fx, fy, cx, cy]`. -/
def writeCamerasBinaryParams (i : FCameraIntrinsics) : List ℚ :=
  match i.cameraModel with
  | .SIMPLE_PINHOLE => [i.focalLengthX, i.principalPointX, i.principalPointY]
  | .PINHOLE => [i.focalLengthX, i.focalLengthY, i.principalPointX, i.principalPointY]
  | .OPENCV =>
      [i.focalLengthX, i.focalLengthY, i.principalPointX, i.principalPointY,
        i.k1, i.k2, i.p1, i.p2]
  | _ => [i.focalLengthX, i.focalLengthY, i.principalPointX, i.principalPointY]

/-- Embeds `FColmapWriter::WriteCamerasBinary`: u64 camera count, then per camera
u32 id, i32 model id, u64 width, u64 height, then the f64 parameter
vector. -/
def WriteCamerasBinary (cams : List FColmapCamera) : List BinField :=
  BinField.u64 cams.length ::
    cams.flatMap fun c =>
      [BinField.u32 c.cameraId,
        BinField.i32 (GetColmapModelId c.intrinsics.cameraModel),
        BinField.u64 c.intrinsics.width,
        BinField.u64 c.intrinsics.height]
      ++ (writeCamerasBinaryParams c.intrinsics).map BinField.f64

/-! ## FColmapWriter::CreateImagesFromViewpoints (ColmapWriter.cpp) -/

/-- 3×3 rotation matrix (the rotation part of `FMatrix`), row-major with the
engine's row-vector convention. -/
structure Mat3 where
  m00 : ℝ
  m01 : ℝ
  m02 : ℝ
  m10 : ℝ
  m11 : ℝ
  m12 : ℝ
  m20 : ℝ
  m21 : ℝ
  m22 : ℝ

/-- Embeds `FRotationMatrix::Make(FQuat)` (`TQuatRotationMatrix`): the standard
quaternion-to-matrix expansion used by the engine. -/
noncomputable def quatToRotMatrix (q : Quat) : Mat3 :=
  ⟨1 - 2 * (q.y ^ 2 + q.z ^ 2), 2 * (q.x * q.y + q.w * q.z), 2 * (q.x * q.z - q.w * q.y),
    2 * (q.x * q.y - q.w * q.z), 1 - 2 * (q.x ^ 2 + q.z ^ 2), 2 * (q.y * q.z + q.w * q.x),
    2 * (q.x * q.z + q.w * q.y), 2 * (q.y * q.z - q.w * q.x), 1 - 2 * (q.x ^ 2 + q.y ^ 2)⟩

/-- Embeds `FMatrix::TransformVector`: row vector times matrix (w = 0). -/
noncomputable def Mat3.transformVector (m : Mat3) (v : Vec3) : Vec3 :=
  ⟨v.x * m.m00 + v.y * m.m10 + v.z * m.m20,
    v.x * m.m01 + v.y * m.m11 + v.z * m.m21,
    v.x * m.m02 + v.y * m.m12 + v.z * m.m22⟩

/-- Embeds `FColmapImage` (the fields `CreateImagesFromViewpoints` writes).
The image name is a character list. -/
structure FColmapImage where
  imageId : ℕ
  cameraId : ℕ
  imageName : List Char
  rotation : Quat
  translation : Vec3

/-- A trajectory viewpoint as consumed by the COLMAP writer: world position
plus orientation (`FCameraViewpoint::GetTransform`).  The orientation is
kept abstract here (a `Rotator`); the writer only pipes it through the
rotation conversion. -/
structure WriterViewpoint where
  position : Vec3
  rotation : Rotator

/-- Embeds `FColmapWriter::FormatImageIndex(Index, 5)`: `%0*d` with width 5 —
the decimal digits of the index, zero-padded on the left to five
characters. -/
def FormatImageIndex (i : ℕ) : List Char := padZeros 5 (natDigitsBE i)

/-- Embeds `FColmapWriter::CreateImagesFromViewpoints`.  `rotConv` abstracts the
world-to-camera rotation produced by
`FCoordinateConverter::ConvertCameraToColmap` for a viewpoint orientation
(quaternion pipeline with matrix round-trips and renormalization); every
claim proved below holds for an arbitrary such conversion.  Per viewpoint
`i`: id `i + 1`, camera id 1, name `prefix ++ 5-digit index ++ extension`,
rotation the converted world-to-camera quaternion, translation
`R · (−converted position)` via `FRotationMatrix::Make` and
`TransformVector`. -/
noncomputable def CreateImagesFromViewpoints (rotConv : Rotator → Quat)
    (viewpoints : List WriterViewpoint) (pre ext : List Char) : List FColmapImage :=
  viewpoints.enum.map fun p =>
    let colmapPos := ConvertPositionToColmap p.2.position
    let colmapRot := rotConv p.2.rotation
    { imageId := p.1 + 1
      cameraId := 1
      imageName := pre ++ FormatImageIndex p.1 ++ ext
      rotation := colmapRot
      translation := (quatToRotMatrix colmapRot).transformVector colmapPos.neg }

/-- Decode a big-endian decimal digit string back to a number (left inverse
of the zero-padded formatting, used to prove image names unique). -/
def decodeDigits (l : List Char) : ℕ := l.foldl (fun a c => 10 * a + (c.toNat - 48)) 0

/-! ## FPlyWriter (PlyWriter.cpp) -/

/-- A machine float as the validator observes it: either an exact finite
value or one of the non-finite IEEE classes. -/
inductive MFloat where
  | fin : ℚ → MFloat
  | nan : MFloat
  | inf : MFloat
  | ninf : MFloat
  deriving DecidableEq

/-- Embeds `FMath::IsFinite`. -/
def MFloat.isFinite : MFloat → Bool
  | .fin _ => true
  | _ => false

/-- Embeds `FVector::ContainsNaN`.  The engine implements it as
`!IsFinite(X) || !IsFinite(Y) || !IsFinite(Z)`, i.e. it is true for
infinities as well as NaNs. -/
def containsNaN (x y z : MFloat) : Bool := !x.isFinite || !y.isFinite || !z.isFinite

/-- Embeds `FGaussianSplat` (the fields `ValidateSplats` reads).  The position is
kept as machine floats because the validator classifies non-finite values;
opacity, scale and rotation are used only through rational comparisons. -/
structure FGaussianSplat where
  posX : MFloat
  posY : MFloat
  posZ : MFloat
  opacity : ℚ
  scaleX : ℚ
  rotX : ℚ
  rotY : ℚ
  rotZ : ℚ
  rotW : ℚ

/-- The position check of `FPlyWriter::ValidateSplats`:
`!Splat.Position.ContainsNaN() && !FMath::IsFinite(Splat.Position.X)`. -/
def splatPosInvalid (s : FGaussianSplat) : Bool :=
  !containsNaN s.posX s.posY s.posZ && !s.posX.isFinite

/-- The opacity check: `Opacity < 0 || Opacity > 1`. -/
def splatOpacityInvalid (s : FGaussianSplat) : Bool :=
  decide (s.opacity < 0) || decide (1 < s.opacity)

/-- The scale check: `Scale.X > 10 || Scale.X < -20`. -/
def splatScaleInvalid (s : FGaussianSplat) : Bool :=
  decide (10 < s.scaleX) || decide (s.scaleX < -20)

/-- The rotation check: `|Rotation.Size() - 1| > 0.01`.  `FQuat::Size` is
`sqrt` of the squared norm; for a nonnegative radicand the test is
equivalent to the squared norm lying outside `[0.99², 1.01²]`, which is the
form embedded here (square-root free). -/
def splatRotationInvalid (s : FGaussianSplat) : Bool :=
  let n : ℚ := s.rotX ^ 2 + s.rotY ^ 2 + s.rotZ ^ 2 + s.rotW ^ 2
  decide ((101 / 100 : ℚ) ^ 2 < n) || decide (n < (99 / 100 : ℚ) ^ 2)

/-- The warnings `ValidateSplats` can emit, as tags (the counts mirror the
`Printf` arguments). -/
inductive SplatWarning where
  | emptyArray : SplatWarning
  | invalidPositions : ℕ → SplatWarning
  | invalidOpacity : ℕ → SplatWarning
  | extremeScale : ℕ → SplatWarning
  | nonUnitRotation : ℕ → SplatWarning
  | lowCount : ℕ → SplatWarning
  | highCount : ℕ → SplatWarning
  deriving DecidableEq

/-- Embeds `FPlyWriter::ValidateSplats`: counts each failing check over the array,
emits one warning per nonzero count plus the advisory count warnings, and
returns `InvalidPos == 0`. -/
def ValidateSplats (splats : List FGaussianSplat) : Bool × List SplatWarning :=
  if splats.length = 0 then (false, [SplatWarning.emptyArray])
  else
    let invalidPos := splats.countP splatPosInvalid
    let invalidOpacity := splats.countP splatOpacityInvalid
    let invalidScale := splats.countP splatScaleInvalid
    let invalidRotation := splats.countP splatRotationInvalid
    let warnings :=
      (if invalidPos ≠ 0 then [SplatWarning.invalidPositions invalidPos] else [])
      ++ (if invalidOpacity ≠ 0 then [SplatWarning.invalidOpacity invalidOpacity] else [])
      ++ (if invalidScale ≠ 0 then [SplatWarning.extremeScale invalidScale] else [])
      ++ (if invalidRotation ≠ 0 then [SplatWarning.nonUnitRotation invalidRotation] else [])
      ++ (if splats.length < 1000 then [SplatWarning.lowCount splats.length]
          else if 10000000 < splats.length then [SplatWarning.highCount splats.length] else [])
    (invalidPos = 0, warnings)

/-- Embeds `FPlyWriter::WritePointCloud`: refuses an empty point array, otherwise
delegates to the binary/ASCII writer whose platform file write is
abstracted by `save`.  Only the guard is value-level logic. -/
def WritePointCloud (numPoints : ℕ) (bBinary save : Bool) : Bool :=
  if numPoints = 0 then false else save

/-- Embeds `FPlyWriter::WriteGaussianSplats`: same guard for the splat array. -/
def WriteGaussianSplats (numSplats : ℕ) (bBinary save : Bool) : Bool :=
  if numSplats = 0 then false else save

/-! ### FPlyWriter::ParsePlyHeader -/

/-- Embeds `FString::StartsWith`. -/
def startsWith (pre l : List Char) : Bool := l.take pre.length = pre

/-- Substring containment (`FString::Contains`). -/
def containsSub (needle hay : List Char) : Bool :=
  (List.range (hay.length + 1)).any fun i => (hay.drop i).take needle.length = needle

/-- Embeds `FString::ParseIntoArray(..., " ")`: split on spaces, culling empty
parts. -/
def splitWords (l : List Char) : List (List Char) :=
  (List.splitOn ' ' l).filter (· ≠ [])

/-- Embeds `FString::ParseIntoArrayLines`: split on line breaks, culling empty
lines (carriage returns are stripped). -/
def splitLines (l : List Char) : List (List Char) :=
  ((List.splitOn '\n' l).map (fun s => s.filter (· ≠ '\r'))).filter (· ≠ [])

/-- Embeds `FCString::Atoi`: optional sign, then leading decimal digits. -/
def atoi (l : List Char) : ℤ :=
  let digitsOf : List Char → ℕ := fun s =>
    (s.takeWhile (fun c => 48 ≤ c.toNat ∧ c.toNat ≤ 57)).foldl
      (fun a c => 10 * a + (c.toNat - 48)) 0
  match l with
  | '-' :: rest => -(digitsOf rest : ℤ)
  | '+' :: rest => (digitsOf rest : ℤ)
  | _ => (digitsOf l : ℤ)

/-- The out-parameters of `ParsePlyHeader` (initialized to 0 / false /
empty). -/
structure PlyHeaderInfo where
  numVertices : ℤ
  isBinary : Bool
  properties : List (List Char)
  deriving DecidableEq

/-- The scanning loop of `ParsePlyHeader`: per line, a `binary` substring
sets the binary flag, `element vertex` captures the count, `property`
collects the last word, `end_header` stops the scan. -/
def plyHeaderScan : List (List Char) → PlyHeaderInfo → PlyHeaderInfo
  | [], acc => acc
  | line :: rest, acc =>
    if containsSub ('b' :: 'i' :: 'n' :: 'a' :: 'r' :: 'y' :: []) line then
      plyHeaderScan rest { acc with isBinary := true }
    else if startsWith ("element vertex".toList) line then
      plyHeaderScan rest
        { acc with
          numVertices :=
            if 3 ≤ (splitWords line).length then atoi ((splitWords line).getD 2 [])
            else acc.numVertices }
    else if startsWith ("property".toList) line then
      plyHeaderScan rest
        { acc with
          properties :=
            if 3 ≤ (splitWords line).length then acc.properties ++ [(splitWords line).getLastD []]
            else acc.properties }
    else if startsWith ("end_header".toList) line then acc
    else plyHeaderScan rest acc

/-- Embeds `FPlyWriter::ParsePlyHeader`: fails unless the first line starts with
`ply`; scans the header lines; succeeds only when the scanned vertex count
is positive. -/
def ParsePlyHeader (content : List Char) : Bool × PlyHeaderInfo :=
  let lines := splitLines content
  match lines with
  | [] => (false, ⟨0, false, []⟩)
  | l0 :: _ =>
    if startsWith ('p' :: 'l' :: 'y' :: []) l0 then
      let info := plyHeaderScan lines ⟨0, false, []⟩
      (decide (0 < info.numVertices), info)
    else (false, ⟨0, false, []⟩)

/-- Whether the content's first (non-empty) line starts with `ply` — the
early-out test of `ParsePlyHeader`. -/
def plyMagicOk (content : List Char) : Bool :=
  match splitLines content with
  | [] => false
  | l0 :: _ => startsWith ('p' :: 'l' :: 'y' :: []) l0

/-! ## FCameraTrajectoryGenerator (CameraTrajectory.cpp)

Trigonometric positions are embedded over `ℝ`; ring/view counts (`int32`
loop bounds) as `ℕ`. -/

/-- Embeds `ECameraTrajectoryType`. -/
inductive ECameraTrajectoryType where
  | Spherical
  | Orbital
  | Spiral
  | Grid
  | Custom
  | Hemisphere
  | Panoramic360
  deriving DecidableEq

/-- Embeds `FCameraViewpoint`. -/
structure FCameraViewpoint where
  position : Vec3
  rotation : Rotator
  viewpointId : ℕ
  ringIndex : ℕ
  ringPosition : ℝ
  distance : ℝ
  elevationAngle : ℝ
  azimuthAngle : ℝ

/-- Embeds `FTrajectoryConfig`.  A custom waypoint (`FTransform`) is embedded as
the location/rotator pair the `Custom` branch extracts from it. -/
structure FTrajectoryConfig where
  trajectoryType : ECameraTrajectoryType
  focusPoint : Vec3
  baseRadius : ℝ
  numRings : ℕ
  viewsPerRing : ℕ
  minElevation : ℝ
  maxElevation : ℝ
  startAzimuth : ℝ
  bVaryRadiusPerRing : Bool
  radiusVariation : ℝ
  bStaggerRings : Bool
  bLookAtFocusPoint : Bool
  pitchOffset : ℝ
  customWaypoints : List (Vec3 × Rotator)

/-- Embeds `FMath::DegreesToRadians`. -/
noncomputable def degToRad (d : ℝ) : ℝ := d * (Real.pi / 180)

/-- Embeds `FMath::RadiansToDegrees`. -/
noncomputable def radToDeg (r : ℝ) : ℝ := r * (180 / Real.pi)

/-- Embeds `atan2(y, x)` via the complex argument. -/
noncomputable def atan2 (y x : ℝ) : ℝ := Complex.arg ⟨x, y⟩

/-- Embeds `FVector::Rotation` (`FRotator` of a direction vector): pitch
`atan2(z, sqrt(x²+y²))`, yaw `atan2(y, x)`, roll 0, in degrees. -/
noncomputable def vecToRotator (v : Vec3) : Rotator :=
  ⟨radToDeg (atan2 v.z (Real.sqrt (v.x ^ 2 + v.y ^ 2))), radToDeg (atan2 v.y v.x), 0⟩

/-- Embeds `FVector::GetSafeNormal`: zero when the length is below tolerance. -/
noncomputable def safeNormal (v : Vec3) : Vec3 :=
  open Classical in
  if v.sqNorm ≤ (1 / 100000000 : ℝ) ^ 2 then ⟨0, 0, 0⟩
  else
    let s := Real.sqrt v.sqNorm
    ⟨v.x / s, v.y / s, v.z / s⟩

/-- Embeds `FCameraTrajectoryGenerator::CalculateLookAtRotation`: rotator of the
normalized camera-to-target direction, with the pitch offset added. -/
noncomputable def CalculateLookAtRotation (cameraPos target : Vec3) (pitchOffset : ℝ) :
    Rotator :=
  let r := vecToRotator (safeNormal (target.sub cameraPos))
  { r with pitch := r.pitch + pitchOffset }

/-- Embeds `FCameraTrajectoryGenerator::SphericalToCartesian`:
`center + radius · (cos e · cos a, cos e · sin a, sin e)` with angles in
degrees. -/
noncomputable def SphericalToCartesian (radius elevDeg azimDeg : ℝ) (center : Vec3) :
    Vec3 :=
  let e := degToRad elevDeg
  let a := degToRad azimDeg
  ⟨center.x + radius * Real.cos e * Real.cos a,
    center.y + radius * Real.cos e * Real.sin a,
    center.z + radius * Real.sin e⟩

/-- Embeds `FCameraTrajectoryGenerator::FibonacciSpherePoint`. -/
noncomputable def FibonacciSpherePoint (index total : ℕ) (radius : ℝ) (center : Vec3) :
    Vec3 :=
  let goldenRatio : ℝ := (1 + Real.sqrt 5) / 2
  let y : ℝ := 1 - ((index : ℝ) / ((total : ℝ) - 1)) * 2
  let radiusAtY := Real.sqrt (1 - y ^ 2)
  let theta := 2 * Real.pi * (index : ℝ) / goldenRatio
  ⟨center.x + radiusAtY * Real.cos theta * radius,
    center.y + radiusAtY * Real.sin theta * radius,
    center.z + y * radius⟩

/-- Embeds `FCameraTrajectoryGenerator::GenerateOrbitalRings`.  The source's
per-ring/per-view nested loops with the running `ViewpointId++` counter are
embedded as nested range maps; the counter value at ring `r`, view `v` is
`r·ViewsPerRing + v`. -/
noncomputable def GenerateOrbitalRings (cfg : FTrajectoryConfig) : List FCameraViewpoint :=
  let elevationRange := cfg.maxElevation - cfg.minElevation
  let elevationStep : ℝ :=
    if 1 < cfg.numRings then elevationRange / ((cfg.numRings : ℝ) - 1) else 0
  (List.range cfg.numRings).flatMap fun (ringIdx : ℕ) =>
    let elevation := cfg.minElevation + elevationStep * (ringIdx : ℝ)
    let ringRadius :=
      if cfg.bVaryRadiusPerRing then
        cfg.baseRadius *
          (1 + cfg.radiusVariation * Real.sin ((ringIdx : ℝ) * Real.pi / (cfg.numRings : ℝ)))
      else cfg.baseRadius
    let azimuthOffset :=
      if cfg.bStaggerRings then
        cfg.startAzimuth + ((ringIdx % 2 : ℕ) : ℝ) * ((360 / (cfg.viewsPerRing : ℝ)) / 2)
      else cfg.startAzimuth
    (List.range cfg.viewsPerRing).map fun (viewIdx : ℕ) =>
      let azimuth := azimuthOffset + (viewIdx : ℝ) * 360 / (cfg.viewsPerRing : ℝ)
      let position := SphericalToCartesian ringRadius elevation azimuth cfg.focusPoint
      let rotation :=
        if cfg.bLookAtFocusPoint then
          CalculateLookAtRotation position cfg.focusPoint cfg.pitchOffset
        else ⟨-elevation, azimuth + 90, 0⟩
      { position := position
        rotation := rotation
        viewpointId := ringIdx * cfg.viewsPerRing + viewIdx
        ringIndex := ringIdx
        ringPosition := (viewIdx : ℝ) / (cfg.viewsPerRing : ℝ)
        distance := ringRadius
        elevationAngle := elevation
        azimuthAngle := azimuth }

/-- One iteration of the `GenerateSpherical` loop: the candidate point for
index `i` is either discarded by the elevation filter or appended with
`ViewpointId = Viewpoints.Num()` (the accumulated count). -/
noncomputable def sphericalStep (cfg : FTrajectoryConfig) (total : ℕ)
    (acc : List FCameraViewpoint) (i : ℕ) : List FCameraViewpoint :=
  open Classical in
  let position := FibonacciSpherePoint i total cfg.baseRadius cfg.focusPoint
  let localPos := position.sub cfg.focusPoint
  let elevation := radToDeg (Real.arcsin (localPos.z / cfg.baseRadius))
  if elevation < cfg.minElevation ∨ cfg.maxElevation < elevation then acc
  else
    let rotation :=
      if cfg.bLookAtFocusPoint then
        CalculateLookAtRotation position cfg.focusPoint cfg.pitchOffset
      else vecToRotator localPos
    acc ++ [{ position := position
              rotation := rotation
              viewpointId := acc.length
              ringIndex := 0
              ringPosition := 0
              distance := cfg.baseRadius
              elevationAngle := elevation
              azimuthAngle := radToDeg (atan2 localPos.y localPos.x) }]

/-- Embeds `FCameraTrajectoryGenerator::GenerateSpherical`: Fibonacci-sphere
candidates, elevation-filtered. -/
noncomputable def GenerateSpherical (cfg : FTrajectoryConfig) : List FCameraViewpoint :=
  let total := cfg.numRings * cfg.viewsPerRing
  (List.range total).foldl (sphericalStep cfg total) []

/-- Embeds `FCameraTrajectoryGenerator::GenerateSpiral`: `ViewsPerRing × 3` points,
id equal to the loop index. -/
noncomputable def GenerateSpiral (cfg : FTrajectoryConfig) : List FCameraViewpoint :=
  let total := cfg.viewsPerRing * 3
  let elevationRange := cfg.maxElevation - cfg.minElevation
  (List.range total).map fun (i : ℕ) =>
    let t : ℝ := (i : ℝ) / ((total : ℝ) - 1)
    let elevation := cfg.maxElevation - t * elevationRange
    let azimuth := cfg.startAzimuth + t * 360 * 3
    let radius :=
      if cfg.bVaryRadiusPerRing then
        cfg.baseRadius * (1 + cfg.radiusVariation * Real.sin (t * Real.pi * 2))
      else cfg.baseRadius
    let position := SphericalToCartesian radius elevation azimuth cfg.focusPoint
    let rotation :=
      if cfg.bLookAtFocusPoint then
        CalculateLookAtRotation position cfg.focusPoint cfg.pitchOffset
      else ⟨0, 0, 0⟩
    { position := position
      rotation := rotation
      viewpointId := i
      ringIndex := 0
      ringPosition := 0
      distance := radius
      elevationAngle := elevation
      azimuthAngle := azimuth - 360 * ⌊(azimuth / 360 : ℝ)⌋ }

/-- Embeds `FCameraTrajectoryGenerator::GenerateHemisphere`: orbital generation
with the elevation range clamped to `[max 0 Min, min 85 Max]`. -/
noncomputable def GenerateHemisphere (cfg : FTrajectoryConfig) : List FCameraViewpoint :=
  GenerateOrbitalRings
    { cfg with
      minElevation := max 0 cfg.minElevation
      maxElevation := min 85 cfg.maxElevation }

/-- The six cubemap rotators of `GeneratePanoramic360`. -/
def panoramicDirections : List Rotator :=
  [⟨0, 0, 0⟩, ⟨0, 90, 0⟩, ⟨0, 180, 0⟩, ⟨0, 270, 0⟩, ⟨-90, 0, 0⟩, ⟨90, 0, 0⟩]

/-- Embeds `FCameraTrajectoryGenerator::GeneratePanoramic360`: `ViewsPerRing`
positions along a line through the focus point, six directions each; the
running id counter value at position `p`, direction `d` is `p·6 + d`. -/
noncomputable def GeneratePanoramic360 (cfg : FTrajectoryConfig) : List FCameraViewpoint :=
  let numPositions := cfg.viewsPerRing
  let pathLength := cfg.baseRadius * 2
  let step := pathLength / ((numPositions : ℝ) - 1)
  (List.range numPositions).flatMap fun (posIdx : ℕ) =>
    let position : Vec3 :=
      ⟨cfg.focusPoint.x + (-(pathLength / 2) + step * (posIdx : ℝ)),
        cfg.focusPoint.y, cfg.focusPoint.z⟩
    panoramicDirections.enum.map fun d =>
      { position := position
        rotation := d.2
        viewpointId := posIdx * 6 + d.1
        ringIndex := posIdx
        ringPosition := (d.1 : ℝ) / 6
        distance := 0
        elevationAngle := 0
        azimuthAngle := 0 }

/-- The `Custom` branch of `GenerateViewpoints`: one viewpoint per waypoint,
id equal to the waypoint index. -/
noncomputable def GenerateCustom (cfg : FTrajectoryConfig) : List FCameraViewpoint :=
  cfg.customWaypoints.enum.map fun w =>
    { position := w.2.1
      rotation := w.2.2
      viewpointId := w.1
      ringIndex := 0
      ringPosition := 0
      distance := 0
      elevationAngle := 0
      azimuthAngle := 0 }

/-- Embeds `FCameraTrajectoryGenerator::GenerateViewpoints`: dispatch on the
trajectory type.  The source `switch` has no `Grid` case, so `Grid` falls
through to the `default` orbital generation. -/
noncomputable def GenerateViewpoints (cfg : FTrajectoryConfig) : List FCameraViewpoint :=
  match cfg.trajectoryType with
  | .Orbital => GenerateOrbitalRings cfg
  | .Spherical => GenerateSpherical cfg
  | .Spiral => GenerateSpiral cfg
  | .Hemisphere => GenerateHemisphere cfg
  | .Panoramic360 => GeneratePanoramic360 cfg
  | .Custom => GenerateCustom cfg
  | .Grid => GenerateOrbitalRings cfg

/-- Embeds the spec's orbital distance invariant: every viewpoint lies at
distance `BaseRadius` from the focus point. -/
noncomputable def OrbitalDistanceInvariant (cfg : FTrajectoryConfig) : Prop :=
  ∀ vp ∈ GenerateOrbitalRings cfg, dist3 vp.position cfg.focusPoint = cfg.baseRadius

/-- A concrete FULL_OPENCV camera (1920×1080, unit parameters), used to
exhibit the zero-pad token behaviour. -/
def fullOpencvCamera : FCameraIntrinsics :=
  ⟨1920, 1080, 1, 1, 1, 1, 0, 0, 0, 0, .FULL_OPENCV⟩

/-- A concrete RADIAL camera (1920×1080, focal length 1000 px, principal
point (960, 540), k1 = 0.1, k2 = 0.01), used to exhibit the binary
writer's parameter-count defect. -/
def radialCamera : FCameraIntrinsics :=
  ⟨1920, 1080, 1000, 1000, 960, 540, 1 / 10, 1 / 100, 0, 0, .RADIAL⟩

/-- The concrete Orbital configuration of the spec's example: 3 rings,
12 views per ring, radius 300 cm around the origin, radius variation
disabled. -/
noncomputable def orbitalConfig36 : FTrajectoryConfig :=
  { trajectoryType := .Orbital
    focusPoint := ⟨0, 0, 0⟩
    baseRadius := 300
    numRings := 3
    viewsPerRing := 12
    minElevation := -30
    maxElevation := 60
    startAzimuth := 0
    bVaryRadiusPerRing := false
    radiusVariation := 3 / 10
    bStaggerRings := true
    bLookAtFocusPoint := true
    pitchOffset := 0
    customWaypoints := [] }

/-! # Theorems -/

/-- C2: for every 3D vector `p`,
`ConvertPositionFromColmap (ConvertPositionToColmap p) = p` (exactly, hence
within 0.01 engine units); `ConvertPositionToColmap` maps `(X, Y, Z)` to
`(Y·0.01, −Z·0.01, X·0.01)` and `ConvertPositionFromColmap` applies the
inverse permutation with the ×100 scale. -/
theorem convertPosition_roundtrip (p : Vec3) :
    ConvertPositionFromColmap (ConvertPositionToColmap p) = p ∧
    ConvertPositionToColmap p = ⟨p.y * (1 / 100), -p.z * (1 / 100), p.x * (1 / 100)⟩ ∧
    ConvertPositionFromColmap p = ⟨p.z * 100, p.x * 100, -p.y * 100⟩ := by
  refine ⟨?_, rfl, rfl⟩
  simp only [ConvertPositionToColmap, ConvertPositionFromColmap, CmToMeters, MetersToCm]
  cases p with
  | mk x y z =>
      simp only [Vec3.mk.injEq]
      refine ⟨?_, ?_, ?_⟩ <;> ring

/-- C4: for `0 < near < far`, `SceneDepthToLinear d near far` returns
exactly `near` when `d ≥ 1`, exactly `far` when `d ≤ 0`, and
`clamp (near/d) near far` when `0 < d < 1`. -/
theorem sceneDepthToLinear_spec (nearPlane farPlane : ℚ)
    (hn : 0 < nearPlane) (hnf : nearPlane < farPlane) :
    SceneDepthSpecAt nearPlane farPlane := by
  intro d
  refine ⟨fun h1 => ?_, fun h0 => ?_, fun hpos hlt => ?_⟩
  · simp [SceneDepthToLinear, h1]
  · have : ¬ (1 : ℚ) ≤ d := by linarith
    simp [SceneDepthToLinear, this, h0]
  · have h1 : ¬ (1 : ℚ) ≤ d := by linarith
    have h0 : ¬ d ≤ 0 := by linarith
    simp [SceneDepthToLinear, h1, h0]

/-- Witness for C4 at `near = 1`, `far = 100`. -/
theorem sceneDepthToLinear_spec_witness :
    (0 : ℚ) < 1 ∧ (1 : ℚ) < 100 ∧ SceneDepthSpecAt 1 100 :=
  ⟨by norm_num, by norm_num, sceneDepthToLinear_spec 1 100 (by norm_num) (by norm_num)⟩

theorem C0_ne_zero : C0 ≠ 0 := by norm_num [C0]

theorem shChannelToByte_channelToSH (n : ℕ) (h : n ≤ 255) :
    shChannelToByte (channelToSH n) = n := by
  have hval : (channelToSH n * C0 + 1 / 2) * 255 = (n : ℚ) := by
    rw [channelToSH, div_mul_cancel₀ _ C0_ne_zero]
    push_cast
    field_simp
    ring
  have hclamp : clampQ ((channelToSH n * C0 + 1 / 2) * 255) 0 255 = (n : ℚ) := by
    rw [hval, clampQ, if_neg (by exact not_lt.mpr (by positivity)), if_neg ?_]
    push_neg
    exact_mod_cast h
  rw [shChannelToByte, hclamp]
  simp

/-- C7 counterexample: the source's `SH_DCToColor` truncates the clamped
value with a C cast rather than rounding it to nearest, so on the SH triple
whose decoded channel value is 100.7 it returns 100 where the spec's
round-to-nearest description demands 101. -/
theorem shDCToColor_not_round_to_nearest :
    SH_DCToColor (((1007 / 10) / 255 - 1 / 2) / C0, ((1007 / 10) / 255 - 1 / 2) / C0,
        ((1007 / 10) / 255 - 1 / 2) / C0) ≠
      SH_DCToColorSpecRounded (((1007 / 10) / 255 - 1 / 2) / C0,
        ((1007 / 10) / 255 - 1 / 2) / C0, ((1007 / 10) / 255 - 1 / 2) / C0) := by
  have hval : ((((1007 / 10) / 255 - 1 / 2) / C0) * C0 + 1 / 2) * 255 = (1007 / 10 : ℚ) := by
    rw [div_mul_cancel₀ _ C0_ne_zero]
    ring
  have hclamp : clampQ (((((1007 / 10) / 255 - 1 / 2) / C0) * C0 + 1 / 2) * 255) 0 255 =
      (1007 / 10 : ℚ) := by
    rw [hval, clampQ, if_neg (by norm_num), if_neg (by norm_num)]
  have htrunc : shChannelToByte (((1007 / 10) / 255 - 1 / 2) / C0) = 100 := by
    rw [shChannelToByte, hclamp]
    norm_num
    decide
  have hround : shChannelToByteSpecRounded (((1007 / 10) / 255 - 1 / 2) / C0) = 101 := by
    rw [shChannelToByteSpecRounded, hclamp]
    norm_num
    decide
  simp only [SH_DCToColor, SH_DCToColorSpecRounded, htrunc, hround, ne_eq, RGB.mk.injEq]
  norm_num

/-- C7 (amended): for every RGB color with byte-range channels,
`SH_DCToColor (ColorToSH_DC c)` recovers `c` exactly (hence within ±1 per
channel), where `ColorToSH_DC` computes `(channel/255 − 0.5)/C0` with
`C0 = 0.28209479177387814` and the inverse clamps `(SH·C0 + 0.5)·255` to
`[0, 255]` and truncates toward zero (the source's C cast), not
round-to-nearest as the spec words it. -/
theorem colorToSH_roundtrip_exact (c : RGB)
    (hr : c.r ≤ 255) (hg : c.g ≤ 255) (hb : c.b ≤ 255) :
    SH_DCToColor (ColorToSH_DC c) = c := by
  cases c with
  | mk r g b =>
      simp only [ColorToSH_DC, SH_DCToColor, RGB.mk.injEq]
      exact ⟨shChannelToByte_channelToSH r hr, shChannelToByte_channelToSH g hg,
        shChannelToByte_channelToSH b hb⟩

/-- Witness for C7 at the color (128, 64, 192). -/
theorem colorToSH_roundtrip_exact_witness :
    (128 ≤ 255 ∧ 64 ≤ 255 ∧ 192 ≤ 255) ∧
      SH_DCToColor (ColorToSH_DC ⟨128, 64, 192⟩) = ⟨128, 64, 192⟩ :=
  ⟨⟨by norm_num, by norm_num, by norm_num⟩,
    colorToSH_roundtrip_exact ⟨128, 64, 192⟩ (by norm_num) (by norm_num) (by norm_num)⟩

/-! ### Digit/formatting lemmas -/

theorem digitChar_ne (d : ℕ) (hd : d < 10) : digitChar d ≠ '.' ∧ digitChar d ≠ ' ' := by
  interval_cases d <;> exact ⟨by decide, by decide⟩

theorem natDigitsBE_chars (n : ℕ) :
    ∀ c ∈ natDigitsBE n, c ≠ '.' ∧ c ≠ ' ' := by
  intro c hc
  rw [natDigitsBE] at hc
  by_cases h : n = 0
  · simp [h] at hc
    subst hc
    exact ⟨by decide, by decide⟩
  · simp only [h, if_false, List.mem_map, List.mem_reverse] at hc
    obtain ⟨d, hd, rfl⟩ := hc
    exact digitChar_ne d (Nat.digits_lt_base (by norm_num) hd)

theorem natDigitsBE_length_le (m k : ℕ) (hk : 0 < k) (hm : m < 10 ^ k) :
    (natDigitsBE m).length ≤ k := by
  rw [natDigitsBE]
  by_cases h : m = 0
  · simpa [h] using hk
  · simp only [h, if_false, List.length_map, List.length_reverse]
    rw [Nat.digits_len 10 m (by norm_num) h]
    have : Nat.log 10 m < k := Nat.log_lt_of_lt_pow h hm
    omega

theorem dropWhile_append_of_forall {p : Char → Bool} {l1 l2 : List Char}
    (h : ∀ c ∈ l1, p c = true) :
    List.dropWhile p (l1 ++ l2) = List.dropWhile p l2 := by
  induction l1 with
  | nil => rfl
  | cons a t ih =>
      simp only [List.cons_append, List.dropWhile_cons, h a (by simp), if_true]
      exact ih fun c hc => h c (by simp [hc])

theorem fracPart_formatFixed10 (q : ℚ) : (fracPart (formatFixed10 q)).length = 10 := by
  rw [formatFixed10, fracPart]
  set n : ℕ := (⌊|q| * 10 ^ 10 + 1 / 2⌋).toNat with hn
  have hsign : ∀ c ∈ (if q < 0 then ['-'] else []), (decide (c ≠ '.')) = true := by
    intro c hc
    by_cases hq : q < 0
    · simp [hq] at hc
      subst hc
      decide
    · simp [hq] at hc
  have hdig : ∀ c ∈ natDigitsBE (n / 10 ^ 10), (decide (c ≠ '.')) = true := by
    intro c hc
    simpa using (natDigitsBE_chars _ c hc).1
  rw [List.append_assoc, List.append_assoc, dropWhile_append_of_forall hsign,
    dropWhile_append_of_forall hdig]
  have hdot : List.dropWhile (fun c => decide (c ≠ '.'))
      (['.'] ++ padZeros 10 (natDigitsBE (n % 10 ^ 10))) =
      '.' :: padZeros 10 (natDigitsBE (n % 10 ^ 10)) := by
    simp [List.dropWhile_cons]
  rw [hdot]
  simp only [List.tail_cons, padZeros, List.length_append, List.length_replicate]
  have hlt : n % 10 ^ 10 < 10 ^ 10 := Nat.mod_lt _ (by norm_num)
  have := natDigitsBE_length_le (n % 10 ^ 10) 10 (by norm_num) hlt
  omega

theorem formatFixed10_ne_nil (q : ℚ) : formatFixed10 q ≠ [] := by
  rw [formatFixed10]
  intro h
  have := congrArg List.length h
  simp [List.length_append] at this

theorem space_not_mem_formatFixed10 (q : ℚ) : ' ' ∉ formatFixed10 q := by
  rw [formatFixed10]
  intro h
  rcases List.mem_append.mp h with h | h
  · rcases List.mem_append.mp h with h | h
    · rcases List.mem_append.mp h with h | h
      · by_cases hq : q < 0
        · simp [hq] at h
        · simp [hq] at h
      · exact (natDigitsBE_chars _ _ h).2 rfl
    · simp at h
  · rw [padZeros] at h
    rcases List.mem_append.mp h with h | h
    · have := List.eq_of_mem_replicate h
      simp at this
    · exact (natDigitsBE_chars _ _ h).2 rfl

/-- C6 counterexample: the spec says all serialized parameter values carry
ten decimal digits, but the four FULL_OPENCV zero-pad tokens are the
literal `0.0` (one fractional digit). -/
theorem fullOpencv_pad_not_ten_digits :
    ¬ ∀ t ∈ GetColmapParamsTokens fullOpencvCamera, (fracPart t).length = 10 := by
  intro h
  have hmem : zeroPadToken ∈ GetColmapParamsTokens fullOpencvCamera := by
    simp [GetColmapParamsTokens, fullOpencvCamera]
  have := h zeroPadToken hmem
  simp [fracPart, zeroPadToken] at this

/-- C6 (amended): for every camera, `GetColmapModelId` returns the fixed id
(0, 1, 2, 3, 4, 6) and `GetColmapParamsString` is the space-join of exactly
the model's fixed number of nonempty space-free tokens (3, 4, 4, 5, 8, 12);
every token is a 10-decimal-digit fixed-precision value except the four
FULL_OPENCV zero-pads, which are emitted as the literal `0.0`. -/
theorem colmapParams_tokens_spec (i : FCameraIntrinsics) :
    (GetColmapParamsTokens i).length = colmapModelSpecArity i.cameraModel ∧
    GetColmapParamsString i = List.intercalate [' '] (GetColmapParamsTokens i) ∧
    (∀ t ∈ GetColmapParamsTokens i, t ≠ [] ∧ ' ' ∉ t) ∧
    (∀ t ∈ GetColmapParamsTokens i, (fracPart t).length = 10 ∨ t = zeroPadToken) ∧
    GetColmapModelId .SIMPLE_PINHOLE = 0 ∧ GetColmapModelId .PINHOLE = 1 ∧
    GetColmapModelId .SIMPLE_RADIAL = 2 ∧ GetColmapModelId .RADIAL = 3 ∧
    GetColmapModelId .OPENCV = 4 ∧ GetColmapModelId .FULL_OPENCV = 6 := by
  refine ⟨?_, rfl, ?_, ?_, rfl, rfl, rfl, rfl, rfl, rfl⟩
  · cases h : i.cameraModel <;> simp [GetColmapParamsTokens, colmapModelSpecArity, h]
  · intro t ht
    cases h : i.cameraModel <;> rw [GetColmapParamsTokens, h] at ht <;>
      simp only [List.mem_cons, List.not_mem_nil, or_false] at ht <;>
      rcases ht with rfl | ht <;>
      first
      | exact ⟨formatFixed10_ne_nil _, space_not_mem_formatFixed10 _⟩
      | (rcases ht with rfl | ht <;>
          first
          | exact ⟨formatFixed10_ne_nil _, space_not_mem_formatFixed10 _⟩
          | (rcases ht with rfl | ht <;>
              first
              | exact ⟨formatFixed10_ne_nil _, space_not_mem_formatFixed10 _⟩
              | (rcases ht with rfl | ht <;>
                  first
                  | exact ⟨formatFixed10_ne_nil _, space_not_mem_formatFixed10 _⟩
                  | (rcases ht with rfl | ht <;>
                      first
                      | exact ⟨formatFixed10_ne_nil _, space_not_mem_formatFixed10 _⟩
                      | (rcases ht with rfl | ht <;>
                          first
                          | exact ⟨formatFixed10_ne_nil _, space_not_mem_formatFixed10 _⟩
                          | (rcases ht with rfl | ht <;>
                              first
                              | exact ⟨formatFixed10_ne_nil _,
                                  space_not_mem_formatFixed10 _⟩
                              | (rcases ht with rfl | ht <;>
                                  first
                                  | exact ⟨formatFixed10_ne_nil _,
                                      space_not_mem_formatFixed10 _⟩
                                  | (rcases ht with rfl | ht <;>
                                      first
                                      | exact ⟨by decide, by decide⟩
                                      | (rcases ht with rfl | ht <;>
                                          first
                                          | exact ⟨by decide, by decide⟩
                                          | (rcases ht with rfl | rfl <;>
                                              exact ⟨by decide, by decide⟩))))))))))
  · intro t ht
    cases h : i.cameraModel <;> rw [GetColmapParamsTokens, h] at ht <;>
      simp only [List.mem_cons, List.not_mem_nil, or_false] at ht <;>
      rcases ht with rfl | rfl | rfl | rfl | rfl | rfl | rfl | rfl | rfl | rfl | rfl | rfl <;>
      first
      | exact Or.inl (fracPart_formatFixed10 _)
      | exact Or.inr rfl

/-- C1 at the failing input: `WriteCamerasBinary` frames the file as the
claim says (u64 count, then u32 id, i32 model id, u64 width, u64 height and
an f64 parameter vector), but for a RADIAL camera the `switch` falls into
the `default` branch and serializes only the 4-element pinhole vector
`[fx, fy, cx, cy]`, not the 5-element RADIAL vector of the spec's arity
table. -/
theorem writeCamerasBinary_radial_arity_mismatch :
    WriteCamerasBinary [⟨1, radialCamera⟩] =
      [BinField.u64 1, BinField.u32 1, BinField.i32 3,
        BinField.u64 1920, BinField.u64 1080]
      ++ (writeCamerasBinaryParams radialCamera).map BinField.f64 ∧
    (writeCamerasBinaryParams radialCamera).length = 4 ∧
    colmapModelSpecArity EColmapCameraModel.RADIAL = 5 := by
  refine ⟨?_, rfl, rfl⟩
  simp [WriteCamerasBinary, radialCamera, GetColmapModelId]

/-- A splat whose position X is NaN and whose other fields are benign
(opacity 1, log-scale −5, identity rotation). -/
def nanPositionSplat : FGaussianSplat :=
  { posX := MFloat.nan
    posY := MFloat.fin 0
    posZ := MFloat.fin 0
    opacity := 1
    scaleX := -5
    rotX := 0
    rotY := 0
    rotZ := 0
    rotW := 1 }

/-- C8 at the failing input: `ValidateSplats` on a single splat with a NaN
position returns `true` and emits no invalid-position warning (only the
advisory low-count warning), because the check
`!ContainsNaN() && !IsFinite(X)` cannot fire on a NaN position.  The claim
(and the spec) demand a warning and a `false` return. -/
theorem validateSplats_nan_position_accepted :
    ValidateSplats [nanPositionSplat] =
      (true, [SplatWarning.lowCount 1]) ∧
    splatPosInvalid nanPositionSplat = false := by
  constructor
  · rw [ValidateSplats]
    norm_num [List.countP, List.countP.go, splatPosInvalid, splatOpacityInvalid,
      splatScaleInvalid, splatRotationInvalid, nanPositionSplat, containsNaN,
      MFloat.isFinite]
  · rfl

/-- C9: the serializers refuse empty inputs with a `false` return
(`WritePointCloud`, `WriteGaussianSplats`), and `ParsePlyHeader` returns
`false` whenever its scanned vertex count is not positive or the content
does not begin with `ply` — always a boolean result (the embedded functions
are total). -/
theorem ply_boundary_failures :
    (∀ bBinary save : Bool, WritePointCloud 0 bBinary save = false) ∧
    (∀ bBinary save : Bool, WriteGaussianSplats 0 bBinary save = false) ∧
    (∀ content : List Char,
      (plyHeaderScan (splitLines content) ⟨0, false, []⟩).numVertices ≤ 0 →
        (ParsePlyHeader content).1 = false) ∧
    (∀ content : List Char,
      plyMagicOk content = false → (ParsePlyHeader content).1 = false) := by
  refine ⟨fun _ _ => rfl, fun _ _ => rfl, ?_, ?_⟩
  · intro content h
    rw [ParsePlyHeader]
    cases hl : splitLines content with
    | nil => rfl
    | cons l0 rest =>
        rw [hl] at h
        by_cases hply : startsWith ('p' :: 'l' :: 'y' :: []) l0
        · simp only [hply, if_true]
          simpa using h
        · simp [hply]
  · intro content h
    rw [ParsePlyHeader]
    rw [plyMagicOk] at h
    cases hl : splitLines content with
    | nil => rfl
    | cons l0 rest =>
        rw [hl] at h
        simp [show startsWith ('p' :: 'l' :: 'y' :: []) l0 = false from h]

/-- Witness for C9: a content that is not a PLY file, and a PLY header
declaring zero vertices, are both rejected. -/
theorem ply_boundary_failures_witness :
    WritePointCloud 0 true true = false ∧
    WriteGaussianSplats 0 false true = false ∧
    plyMagicOk ("foo".toList) = false ∧
    (ParsePlyHeader ("foo".toList)).1 = false ∧
    (plyHeaderScan (splitLines ("ply\nelement vertex 0\nend_header\n".toList))
        ⟨0, false, []⟩).numVertices ≤ 0 ∧
    (ParsePlyHeader ("ply\nelement vertex 0\nend_header\n".toList)).1 = false :=
  ⟨ply_boundary_failures.1 true true,
    ply_boundary_failures.2.1 false true,
    by decide,
    ply_boundary_failures.2.2.2 ("foo".toList) (by decide),
    by decide,
    ply_boundary_failures.2.2.1 ("ply\nelement vertex 0\nend_header\n".toList) (by decide)⟩

/-! ### Decimal decode lemmas (image-name uniqueness) -/

theorem digitChar_toNat (d : ℕ) (hd : d < 10) : (digitChar d).toNat - 48 = d := by
  interval_cases d <;> decide

theorem decodeDigits_replicate_zero (k : ℕ) (l : List Char) :
    decodeDigits (List.replicate k '0' ++ l) = decodeDigits l := by
  rw [decodeDigits, decodeDigits, List.foldl_append]
  congr 1
  induction k with
  | zero => rfl
  | succ m ih => simpa [List.replicate_succ] using ih

theorem decodeDigits_natDigitsBE (n : ℕ) : decodeDigits (natDigitsBE n) = n := by
  by_cases h : n = 0
  · subst h
    decide
  · rw [decodeDigits, natDigitsBE, if_neg h, List.map_reverse, List.foldl_reverse]
    have key : ∀ D : List ℕ, (∀ d ∈ D, d < 10) →
        List.foldr (fun x y => 10 * y + (x.toNat - 48)) 0 (D.map digitChar) =
          Nat.ofDigits 10 D := by
      intro D
      induction D with
      | nil => intro _; simp [Nat.ofDigits]
      | cons d tl ih =>
          intro hD
          simp only [List.map_cons, List.foldr_cons, Nat.ofDigits_cons,
            ih fun x hx => hD x (by simp [hx]),
            digitChar_toNat d (hD d (by simp))]
          ring
    rw [key (Nat.digits 10 n) fun d hd => Nat.digits_lt_base (by norm_num) hd,
      Nat.ofDigits_digits]

theorem formatImageIndex_injective : Function.Injective FormatImageIndex := by
  intro a b h
  have ha : decodeDigits (FormatImageIndex a) = a := by
    rw [FormatImageIndex, padZeros, decodeDigits_replicate_zero, decodeDigits_natDigitsBE]
  have hb : decodeDigits (FormatImageIndex b) = b := by
    rw [FormatImageIndex, padZeros, decodeDigits_replicate_zero, decodeDigits_natDigitsBE]
  rw [← ha, ← hb, h]

theorem imageName_injective (pre ext : List Char) :
    Function.Injective (fun i => pre ++ FormatImageIndex i ++ ext) := by
  intro a b h
  have h1 : pre ++ (FormatImageIndex a ++ ext) = pre ++ (FormatImageIndex b ++ ext) := by
    simpa [List.append_assoc] using h
  have h2 : FormatImageIndex a ++ ext = FormatImageIndex b ++ ext :=
    List.append_cancel_left h1
  exact formatImageIndex_injective (List.append_cancel_right h2)

theorem forall₂_enumFrom_map {α β : Type} (R : β → α → Prop) (f : ℕ × α → β)
    (h : ∀ i a, R (f (i, a)) a) (l : List α) :
    ∀ n : ℕ, List.Forall₂ R ((l.enumFrom n).map f) l := by
  induction l with
  | nil => intro n; exact List.Forall₂.nil
  | cons a tl ih =>
      intro n
      rw [List.enumFrom_cons, List.map_cons]
      exact List.Forall₂.cons (h n a) (ih (n + 1))

/-- C3: for every viewpoint list (and any rotation conversion),
`CreateImagesFromViewpoints` returns records whose ids are exactly 1..N in
order, whose camera id is constantly 1, whose names
(prefix + zero-padded 5-digit index + extension) are pairwise distinct, and
whose translation is the stored world-to-camera rotation applied (as a
rotation matrix) to the negated converted camera center, the stored
rotation being the converted one. -/
theorem createImages_spec (rotConv : Rotator → Quat) (vps : List WriterViewpoint)
    (pre ext : List Char) :
    ((CreateImagesFromViewpoints rotConv vps pre ext).map (·.imageId)) =
      (List.range vps.length).map (· + 1) ∧
    ((CreateImagesFromViewpoints rotConv vps pre ext).map (·.cameraId)) =
      List.replicate vps.length 1 ∧
    ((CreateImagesFromViewpoints rotConv vps pre ext).map (·.imageName)) =
      (List.range vps.length).map (fun i => pre ++ FormatImageIndex i ++ ext) ∧
    ((CreateImagesFromViewpoints rotConv vps pre ext).map (·.imageName)).Nodup ∧
    List.Forall₂
      (fun im vp =>
        im.rotation = rotConv vp.rotation ∧
        im.translation = (quatToRotMatrix im.rotation).transformVector
          (ConvertPositionToColmap vp.position).neg)
      (CreateImagesFromViewpoints rotConv vps pre ext) vps := by
  have hname : ((CreateImagesFromViewpoints rotConv vps pre ext).map (·.imageName)) =
      (List.range vps.length).map (fun i => pre ++ FormatImageIndex i ++ ext) := by
    rw [CreateImagesFromViewpoints, List.map_map, ← List.enum_map_fst vps, List.map_map]
    rfl
  refine ⟨?_, ?_, hname, ?_, ?_⟩
  · rw [CreateImagesFromViewpoints, List.map_map, ← List.enum_map_fst vps, List.map_map]
    rfl
  · rw [CreateImagesFromViewpoints, List.map_map]
    have : ((·.cameraId) ∘ fun p : ℕ × WriterViewpoint =>
        (⟨p.1 + 1, 1, pre ++ FormatImageIndex p.1 ++ ext, rotConv p.2.rotation,
          (quatToRotMatrix (rotConv p.2.rotation)).transformVector
            (ConvertPositionToColmap p.2.position).neg⟩ : FColmapImage)) =
        fun _ => 1 := rfl
    rw [this, List.map_const', List.enum_length]
  · rw [hname]
    exact (List.nodup_range vps.length).map (imageName_injective pre ext)
  · exact forall₂_enumFrom_map _ _ (fun i a => ⟨rfl, rfl⟩) vps 0

/-! ### Trajectory lemmas -/

theorem range_flatMap_mul (R V : ℕ) :
    ((List.range R).flatMap fun r => (List.range V).map fun v => r * V + v) =
      List.range (R * V) := by
  induction R with
  | zero => simp
  | succ n ih =>
      rw [List.range_succ, List.flatMap_append, ih, Nat.succ_mul, List.range_add]
      simp

theorem orbital_map_ids (cfg : FTrajectoryConfig) :
    (GenerateOrbitalRings cfg).map (·.viewpointId) =
      List.range (cfg.numRings * cfg.viewsPerRing) := by
  rw [GenerateOrbitalRings, List.map_flatMap, ← range_flatMap_mul cfg.numRings]
  refine List.flatMap_congr ?_
  intro r _
  rw [List.map_map]
  rfl

theorem orbital_length (cfg : FTrajectoryConfig) :
    (GenerateOrbitalRings cfg).length = cfg.numRings * cfg.viewsPerRing := by
  have h := congrArg List.length (orbital_map_ids cfg)
  simpa using h

theorem sphericalStep_cases (cfg : FTrajectoryConfig) (total : ℕ)
    (acc : List FCameraViewpoint) (i : ℕ) :
    sphericalStep cfg total acc i = acc ∨
      ∃ vp : FCameraViewpoint, vp.viewpointId = acc.length ∧
        sphericalStep cfg total acc i = acc ++ [vp] := by
  simp only [sphericalStep]
  split
  · exact Or.inl rfl
  · exact Or.inr ⟨_, rfl, rfl⟩

theorem spherical_foldl_ids (cfg : FTrajectoryConfig) (total : ℕ) :
    ∀ (idxs : List ℕ) (acc : List FCameraViewpoint),
      acc.map (·.viewpointId) = List.range acc.length →
      ((idxs.foldl (sphericalStep cfg total) acc).map (·.viewpointId) =
        List.range (idxs.foldl (sphericalStep cfg total) acc).length) := by
  intro idxs
  induction idxs with
  | nil => intro acc h; simpa using h
  | cons i tl ih =>
      intro acc h
      rw [List.foldl_cons]
      refine ih _ ?_
      rcases sphericalStep_cases cfg total acc i with heq | ⟨vp, hid, heq⟩
      · rw [heq]; exact h
      · rw [heq]
        simp only [List.map_append, List.map_cons, List.map_nil, List.length_append,
          List.length_cons, List.length_nil, h, hid]
        rw [List.range_succ]

theorem spherical_ids (cfg : FTrajectoryConfig) :
    (GenerateSpherical cfg).map (·.viewpointId) =
      List.range (GenerateSpherical cfg).length := by
  rw [GenerateSpherical]
  exact spherical_foldl_ids cfg _ _ [] (by simp)

theorem spiral_ids (cfg : FTrajectoryConfig) :
    (GenerateSpiral cfg).map (·.viewpointId) =
      List.range (GenerateSpiral cfg).length := by
  rw [GenerateSpiral]
  simp only [List.map_map, List.length_map, List.length_range]
  show List.map (fun (i : ℕ) => i) (List.range (cfg.viewsPerRing * 3)) =
    List.range (cfg.viewsPerRing * 3)
  simp

theorem panoramic_map_ids (cfg : FTrajectoryConfig) :
    (GeneratePanoramic360 cfg).map (·.viewpointId) =
      List.range (cfg.viewsPerRing * 6) := by
  rw [GeneratePanoramic360, List.map_flatMap, ← range_flatMap_mul cfg.viewsPerRing 6]
  refine List.flatMap_congr ?_
  intro p _
  rw [List.map_map]
  rfl

theorem panoramic_length (cfg : FTrajectoryConfig) :
    (GeneratePanoramic360 cfg).length = cfg.viewsPerRing * 6 := by
  have h := congrArg List.length (panoramic_map_ids cfg)
  simpa using h

theorem panoramic_ids (cfg : FTrajectoryConfig) :
    (GeneratePanoramic360 cfg).map (·.viewpointId) =
      List.range (GeneratePanoramic360 cfg).length := by
  rw [panoramic_map_ids, panoramic_length]

theorem custom_ids (cfg : FTrajectoryConfig) :
    (GenerateCustom cfg).map (·.viewpointId) =
      List.range (GenerateCustom cfg).length := by
  rw [GenerateCustom]
  simp only [List.map_map, List.length_map, List.enum_length]
  rw [← List.enum_map_fst cfg.customWaypoints]
  rfl

/-- C10: for every configuration and trajectory type, `GenerateViewpoints`
assigns `ViewpointId` equal to the element's 0-based index in the returned
list (consecutive 0..N−1 with no gaps), including the Spherical type whose
elevation filter discards candidates. -/
theorem generateViewpoints_ids_positional (cfg : FTrajectoryConfig) :
    (GenerateViewpoints cfg).map (·.viewpointId) =
      List.range (GenerateViewpoints cfg).length := by
  rcases h : cfg.trajectoryType
  all_goals rw [GenerateViewpoints, h]
  · exact spherical_ids cfg
  · rw [orbital_map_ids, orbital_length]
  · exact spiral_ids cfg
  · rw [orbital_map_ids, orbital_length]
  · exact custom_ids cfg
  · rw [GenerateHemisphere, orbital_map_ids, orbital_length]
  · exact panoramic_ids cfg

theorem sqNorm_sphericalToCartesian (R e a : ℝ) (c : Vec3) :
    Vec3.sqNorm ((SphericalToCartesian R e a c).sub c) = R ^ 2 := by
  have h1 := Real.sin_sq_add_cos_sq (degToRad e)
  have h2 := Real.sin_sq_add_cos_sq (degToRad a)
  simp only [SphericalToCartesian, Vec3.sub, Vec3.sqNorm]
  linear_combination (R ^ 2 * Real.cos (degToRad e) ^ 2) * h2 + R ^ 2 * h1

/-- C5: for every Orbital configuration with radius variation disabled and
a nonnegative base radius, `GenerateOrbitalRings` produces exactly
`NumRings × ViewsPerRing` viewpoints, each at distance exactly `BaseRadius`
from the focus point. -/
theorem orbital_count_and_distance (cfg : FTrajectoryConfig)
    (hvary : cfg.bVaryRadiusPerRing = false) (hrad : 0 ≤ cfg.baseRadius) :
    (GenerateOrbitalRings cfg).length = cfg.numRings * cfg.viewsPerRing ∧
      OrbitalDistanceInvariant cfg := by
  refine ⟨orbital_length cfg, ?_⟩
  intro vp hvp
  rw [GenerateOrbitalRings] at hvp
  rw [List.mem_flatMap] at hvp
  obtain ⟨r, _, hvp⟩ := hvp
  rw [List.mem_map] at hvp
  obtain ⟨v, _, rfl⟩ := hvp
  simp only [hvary, Bool.false_eq_true, if_false]
  rw [dist3, sqNorm_sphericalToCartesian, Real.sqrt_sq hrad]

/-- Witness for C5: the 3-ring, 12-view configuration yields exactly 36
viewpoints at distance 300 from the focus point. -/
theorem orbital_count_and_distance_witness :
    orbitalConfig36.bVaryRadiusPerRing = false ∧
    (0 : ℝ) ≤ orbitalConfig36.baseRadius ∧
    (GenerateOrbitalRings orbitalConfig36).length = 36 ∧
    OrbitalDistanceInvariant orbitalConfig36 := by
  have h := orbital_count_and_distance orbitalConfig36 rfl
    (by rw [orbitalConfig36]; norm_num)
  exact ⟨rfl, by rw [orbitalConfig36]; norm_num,
    by simpa [orbitalConfig36] using h.1, h.2⟩

end UE5toGS
